import Mathlib

/-!
Verification development for the sales-comparison reporting tool
(`main.py`, `src/data_processing.py`, `src/visualizations.py`).

The pandas pipeline is shallowly embedded: a DataFrame of validated
transactions becomes `List Txn`, monetary floats become `ℚ`, timestamps
become an epoch-day integer plus a calendar month, and the IEEE special
values produced by the growth-column division (`inf`, `-inf`, `NaN`) are
modelled explicitly by `FVal`.  Fallible loading is `Except`, the fallible
RFM computation is `Option`, matching the `return None` convention of the
source.
-/

namespace SalesApp

/-- A billing timestamp, reduced to the two observables the pipeline uses:
`.dt.month` (the calendar month, 1..12 for any real timestamp) and the
linear day number used by `max` comparisons and by `(a - b).days`. -/
structure Date where
  epochDay : Int
  month : Nat
deriving DecidableEq

/-- One validated transaction row, after `load_and_validate_data`:
the eleven required columns of the input schema, typed. -/
structure Txn where
  billingDate : Date      -- "Billing Date"
  customer : String       -- "Customer" (normalized)
  name : String           -- "Name"
  material : String       -- "Material" (normalized)
  itemDesc : String       -- "Item Description"
  quantity : ℚ            -- "Số Lượng"
  unitPrice : ℚ           -- "Đơn Giá"
  netAmount : ℚ           -- "DS Ðã Trừ CK" (rounded to 2 decimals)
  program : String        -- "Program"
  productHier : String    -- "Product Hierarchy"
  tdv : String            -- "Tên TDV"
deriving DecidableEq

/-- A pandas float cell as it reaches the rendered table: a finite number,
a string (labels), a blank (NaN after `.fillna('')`), or an infinity. -/
inductive CellVal where
  | strV (s : String)
  | numV (q : ℚ)
  | blankV
  | pinfV
  | ninfV
deriving DecidableEq

/-- IEEE-754 result classification for the growth-column arithmetic. -/
inductive FVal where
  | fin (q : ℚ)
  | pinf
  | ninf
  | nan
deriving DecidableEq

/-- Float division as pandas performs it on a Series:
`x / 0` is `inf`/`-inf` for nonzero `x` and `NaN` for `0 / 0`. -/
def fdiv (x y : ℚ) : FVal :=
  if y = 0 then (if x = 0 then .nan else if 0 < x then .pinf else .ninf)
  else .fin (x / y)

/-- Multiplication of a float classification by the positive constant 100. -/
def fscale100 : FVal → FVal
  | .fin q => .fin (q * 100)
  | .pinf => .pinf
  | .ninf => .ninf
  | .nan => .nan

/-- The source's `.replace([float('inf'), -float('inf')], 0)` on the
growth column: infinities become 0, `NaN` is untouched. -/
def replaceInfWithZero : FVal → FVal
  | .pinf => .fin 0
  | .ninf => .fin 0
  | v => v

/-- The final `.fillna('')` as it acts on a float cell of the rendered
table: `NaN` becomes the blank string, numbers stay numbers. -/
def fillBlank : FVal → CellVal
  | .fin q => .numV q
  | .nan => .blankV
  | .pinf => .pinfV
  | .ninf => .ninfV

/-! ## ID normalization (`data_processing.py`, lines 41-42)

`df["Customer"].astype(str).str.replace(r"\.0+$", "", regex=True)`:
an anchored regex substitution that removes a single trailing group
"dot followed by one or more zeros".  We model the (reversed) string scan:
the match exists iff the string ends in at least one `'0'` and the
character right before that zero-run is `'.'`. -/

/-- On the reversed character list: if it starts with a non-empty run of
`'0'` followed by `'.'`, return the remainder (the match removed). -/
def stripTailRev (r : List Char) : Option (List Char) :=
  let k := (r.takeWhile fun c => c == '0').length
  if 0 < k ∧ r[k]? = some '.' then some (r.drop (k + 1)) else none

/-- `str.replace(r"\.0+$", "", regex=True)` on one identifier string. -/
def normalizeId (s : String) : String :=
  match stripTailRev s.data.reverse with
  | some r => String.mk r.reverse
  | none => s

/-! ## Loader and validator (`data_processing.py`, `load_and_validate_data`) -/

/-- The eleven required column names, exactly as listed in the source. -/
def required_columns : List String :=
  ["Billing Date", "Customer", "Name", "Material", "Item Description",
   "Số Lượng", "Đơn Giá", "DS Ðã Trừ CK", "Program", "Product Hierarchy", "Tên TDV"]

/-- One raw spreadsheet row.  External parsing (`pd.to_datetime` with
`errors="coerce"`, `pd.to_numeric` with `errors="coerce"`) is modelled by
`Option` fields: `none` is the coerced "missing" that makes the row drop. -/
structure RawRow where
  rawDate : Option Date
  rawCustomer : String
  rawName : String
  rawMaterial : String
  rawItemDesc : String
  rawQuantity : Option ℚ
  rawUnitPrice : Option ℚ
  rawNetAmount : Option ℚ
  rawProgram : String
  rawProductHier : String
  rawTdv : String
deriving DecidableEq

/-- Round-half-to-even at integer precision, the rounding `pandas.round`
uses. -/
def roundHalfEven (q : ℚ) : ℤ :=
  let f := ⌊q⌋
  let r := q - f
  if r < 1/2 then f
  else if 1/2 < r then f + 1
  else if f % 2 = 0 then f else f + 1

/-- `.round(2)` on the net-amount column. -/
def round2 (q : ℚ) : ℚ := (roundHalfEven (q * 100) : ℚ) / 100

/-- Conversion of a surviving raw row into a typed transaction: ID
normalization on Customer and Material, numeric fields already coerced,
net amount rounded to 2 decimals.  The `getD` defaults are unreachable:
the row only survives the drops when every `Option` field is `some`. -/
def mkTxn (r : RawRow) : Txn :=
  { billingDate := r.rawDate.getD { epochDay := 0, month := 1 }
    customer := normalizeId r.rawCustomer
    name := r.rawName
    material := normalizeId r.rawMaterial
    itemDesc := r.rawItemDesc
    quantity := r.rawQuantity.getD 0
    unitPrice := r.rawUnitPrice.getD 0
    netAmount := round2 (r.rawNetAmount.getD 0)
    program := r.rawProgram
    productHier := r.rawProductHier
    tdv := r.rawTdv }

/-- The row-level cleaning stage in one piece: drop rows with an
unparseable date, then drop rows with any non-numeric required field,
then convert.  Row order of the source is preserved. -/
def cleanRows (rows : List RawRow) : List Txn :=
  (((rows.filter fun r => r.rawDate.isSome).filter fun r =>
      r.rawQuantity.isSome && r.rawUnitPrice.isSome && r.rawNetAmount.isSome).map mkTxn)

/-- `load_and_validate_data`: the required-column check, then the
sequential cleaning steps of the source (date drop, ID normalization,
numeric drop, rounding).  `Except.error` carries the missing-column list
the source logs and shows before returning `None`. -/
def load_and_validate_data (cols : List String) (rows : List RawRow) :
    Except (List String) (List Txn) :=
  let missing := required_columns.filter fun c => ¬ cols.contains c
  if missing.isEmpty then
    let afterDates := rows.filter fun r => r.rawDate.isSome
    let afterNums := afterDates.filter fun r =>
      r.rawQuantity.isSome && r.rawUnitPrice.isSome && r.rawNetAmount.isSome
    .ok (afterNums.map mkTxn)
  else .error missing

/-! ## Filter engine (`main.py` lines 141-146 and the shared prologue of
every `plot_*` function, `visualizations.py` lines 61-71) -/

/-- `months = list(range(1, 13))` in `main.py`. -/
def monthsAll : List Nat := [1, 2, 3, 4, 5, 6, 7, 8, 9, 10, 11, 12]

/-- The active selection dictionary handed to every tab. -/
structure Filters where
  months : List Nat
  customers : List String
  materials : List String
  tdvs : List String
deriving DecidableEq

/-- `main.py`'s construction of `filters`: an empty month selection is
defaulted to all twelve months (`selected_months or months`); the other
three selections are passed through as-is. -/
def mkFilters (selMonths : List Nat) (selCustomers selMaterials selTdvs : List String) :
    Filters :=
  { months := if selMonths.isEmpty then monthsAll else selMonths
    customers := selCustomers
    materials := selMaterials
    tdvs := selTdvs }

/-- The filtering prologue shared by all four tabs: the month restriction
is applied unconditionally via `.isin`, while customers, materials and
TDVs restrict only when their selection list is non-empty (Python
truthiness of the list). -/
def filterRows (df : List Txn) (f : Filters) : List Txn :=
  let d1 := df.filter fun t => f.months.contains t.billingDate.month
  let d2 := if f.customers.isEmpty then d1
            else d1.filter fun t => f.customers.contains t.customer
  let d3 := if f.materials.isEmpty then d2
            else d2.filter fun t => f.materials.contains t.material
  if f.tdvs.isEmpty then d3 else d3.filter fun t => f.tdvs.contains t.tdv

/-! ## Aggregation engine (`plot_overview` lines 77-99, repeated verbatim
for products in `plot_product_analysis` and for customers in
`plot_customer_analysis` / `plot_tdv_analysis`) -/

/-- `df.groupby(key)` group labels: pandas sorts the distinct keys
ascending. -/
def groupKeys (df : List Txn) (key : Txn → String) : List String :=
  List.insertionSort (fun a b => ¬ b < a) (df.map key).dedup

/-- `groupby(key).agg({'DS Ðã Trừ CK': 'sum', label: 'first'}).reset_index()`:
one `(key, first-seen label, summed net amount)` triple per distinct key. -/
def groupAgg (df : List Txn) (key lbl : Txn → String) : List (String × String × ℚ) :=
  (groupKeys df key).map fun k =>
    let g := df.filter fun t => key t = k
    (k, (g.head?.map lbl).getD "", (g.map Txn.netAmount).sum)

/-- Key lookup in a grouped frame (the join probe of `merge(..., on=key)`). -/
def lookupKey (R : List (String × String × ℚ)) (k : String) : Option (String × String × ℚ) :=
  R.find? fun e => e.1 = k

/-- One row of `prev.merge(curr, on=key, how='outer', ...).fillna(0)`,
before the growth column is added.  A side the key is missing from
contributes `NaN` amount and `NaN` label, both filled with the number 0
by the `.fillna(0)` on the merged frame. -/
structure MergedRow where
  key : String
  namePrev : CellVal
  amtPrev : ℚ
  nameCurr : CellVal
  amtCurr : ℚ
deriving DecidableEq

/-- The left-frame half of the outer merge: a left row joined with its
right partner when the key matches, `fillna(0)` otherwise. -/
def mergeLeftRow (R : List (String × String × ℚ)) (e : String × String × ℚ) : MergedRow :=
  match lookupKey R e.1 with
  | some e2 => { key := e.1, namePrev := .strV e.2.1, amtPrev := e.2.2,
                 nameCurr := .strV e2.2.1, amtCurr := e2.2.2 }
  | none => { key := e.1, namePrev := .strV e.2.1, amtPrev := e.2.2,
              nameCurr := .numV 0, amtCurr := 0 }

/-- `how='outer'` with `.fillna(0)`: every left key in left order, then
the right-only keys, with the missing side filled with 0. -/
def mergeOuterFill (L R : List (String × String × ℚ)) : List MergedRow :=
  L.map (mergeLeftRow R) ++
    (R.filter fun e => (lookupKey L e.1).isNone).map fun e =>
      { key := e.1, namePrev := .numV 0, amtPrev := 0,
        nameCurr := .strV e.2.1, amtCurr := e.2.2 }

/-- The growth column of a merged row:
`((curr - prev) / prev * 100).replace([inf, -inf], 0)` followed by the
table-level `.fillna('')` that renders a `NaN` (the `0 / 0` case) blank. -/
def rowGrowth (p c : ℚ) : CellVal :=
  fillBlank (replaceInfWithZero (fscale100 (fdiv (c - p) p)))

/-- The Python scalar growth expression used for the headline metric and
the totals row: `(c - p) / p * 100 if p else 0` — the falsy test makes
the result 0 whenever `p = 0`, including `c = 0`. -/
def pyGrowth (p c : ℚ) : ℚ := if p ≠ 0 then (c - p) / p * 100 else 0

/-- One row of a rendered comparison table (customer / product / per-TDV
customer breakdowns all share this shape). -/
structure AggRow where
  key : String
  namePrev : CellVal
  amtPrev : ℚ
  nameCurr : CellVal
  amtCurr : ℚ
  growth : CellVal
deriving DecidableEq

/-- A comparison table: the merged entity rows plus the synthetic totals
row appended by `pd.concat([..., total_row])`. -/
structure AggTable where
  rows : List AggRow
  totals : AggRow
deriving DecidableEq

/-- The full table construction for one grouping key: group both filtered
periods, outer-merge, add the growth column, and append the totals row
(sums of both amount columns, growth from the sums via the falsy test). -/
def aggregateTable (dfPrev dfCurr : List Txn) (key lbl : Txn → String) : AggTable :=
  let L := groupAgg dfPrev key lbl
  let R := groupAgg dfCurr key lbl
  let rows := (mergeOuterFill L R).map fun m =>
    { key := m.key, namePrev := m.namePrev, amtPrev := m.amtPrev,
      nameCurr := m.nameCurr, amtCurr := m.amtCurr,
      growth := rowGrowth m.amtPrev m.amtCurr : AggRow }
  { rows := rows
    totals :=
      { key := "", namePrev := .strV "", amtPrev := (rows.map (·.amtPrev)).sum,
        nameCurr := .strV "", amtCurr := (rows.map (·.amtCurr)).sum,
        growth := .numV (pyGrowth ((rows.map (·.amtPrev)).sum) ((rows.map (·.amtCurr)).sum)) } }

/-- The headline total of one filtered period
(`df['DS Ðã Trừ CK'].sum() if not df.empty else 0`; the empty sum is 0
either way). -/
def overviewTotal (df : List Txn) : ℚ := (df.map Txn.netAmount).sum

/-- The headline period-over-period growth metric of the overview tab. -/
def overviewGrowth (dfPrevF dfCurrF : List Txn) : ℚ :=
  pyGrowth (overviewTotal dfPrevF) (overviewTotal dfCurrF)

/-! ## RFM scorer (`calculate_rfm`, `visualizations.py` lines 7-29) -/

/-- One group of `df.groupby(['Customer', 'Name'])` with its three RFM
metrics.  Recency and frequency are integer-valued but live in `ℚ`, the
numeric domain `pd.qcut` works in. -/
structure RFMGroup where
  customer : String
  name : String
  recency : ℚ
  freq : ℚ
  mon : ℚ
deriving DecidableEq

/-- The distinct `(Customer, Name)` pairs, in the sorted order pandas
gives group keys. -/
def rfmGroupKeys (df : List Txn) : List (String × String) :=
  List.insertionSort
    (fun a b => a.1 < b.1 ∨ (a.1 = b.1 ∧ ¬ b.2 < a.2))
    ((df.map fun t => (t.customer, t.name)).dedup)

/-- The grouped metrics: `Recency = (latest_date - x.max()).days`,
`Frequency = count`, `Monetary = sum`.  Each group is non-empty, so the
`getD 0` default of `max?` is never taken. -/
def rfmGroups (df : List Txn) (latestDay : ℤ) : List RFMGroup :=
  (rfmGroupKeys df).map fun k =>
    let g := df.filter fun t => t.customer = k.1 ∧ t.name = k.2
    { customer := k.1, name := k.2
      recency := ((latestDay - ((g.map fun t => t.billingDate.epochDay).max?.getD 0) : ℤ) : ℚ)
      freq := (g.length : ℚ)
      mon := (g.map Txn.netAmount).sum }

/-- Ascending sort of a metric column. -/
def sortRat (l : List ℚ) : List ℚ := List.insertionSort (fun a b => a ≤ b) l

/-- The `p`-quantile of a sorted sample under numpy's default linear
interpolation: position `h = p * (n - 1)`, interpolating between the
neighbouring order statistics. -/
def quantileAt (s : List ℚ) (p : ℚ) : ℚ :=
  let h := p * ((s.length : ℚ) - 1)
  let i := (⌊h⌋).toNat
  let lo := s.getD i 0
  let hi := s.getD (i + 1) lo
  lo + (h - (⌊h⌋ : ℚ)) * (hi - lo)

/-- The five quartile edges `q=4` of `pd.qcut` computes: quantiles at
0, 1/4, 1/2, 3/4, 1 of the sample. -/
def qcutEdges (vals : List ℚ) : List ℚ :=
  let s := sortRat vals
  [quantileAt s 0, quantileAt s (1/4), quantileAt s (1/2),
   quantileAt s (3/4), quantileAt s 1]

/-- Bin placement for right-closed quartile intervals: the number of
internal edges strictly below the value. -/
def binIndexOf (edges : List ℚ) (v : ℚ) : ℕ :=
  ((edges.drop 1).dropLast).countP fun e => decide (e < v)

/-- `pd.qcut(vals, q=4, labels=labels, duplicates='drop')`: compute the
quartile edges, drop duplicate edges, and raise `ValueError` (modelled as
`Except.error`) when the label list no longer matches the merged bin
count; otherwise label each value by its bin. -/
def qcut (vals : List ℚ) (labels : List ℕ) : Except Unit (List ℕ) :=
  let uedges := (qcutEdges vals).dedup
  if labels.length = uedges.length - 1 then
    .ok (vals.map fun v => labels.getD (binIndexOf uedges v) 0)
  else .error ()

/-- The per-metric scoring step of `calculate_rfm`: a column with at most
one distinct value scores 1 everywhere, otherwise `pd.qcut` runs (and may
raise). -/
def scoreMetric (vals : List ℚ) (labels : List ℕ) : Except Unit (List ℕ) :=
  if vals.dedup.length ≤ 1 then .ok (vals.map fun _ => 1) else qcut vals labels

/-- The label list for Recency: inverted, most recent quartile scores 4. -/
def recLabels : List ℕ := [4, 3, 2, 1]

/-- The label list for Frequency and Monetary: direct. -/
def dirLabels : List ℕ := [1, 2, 3, 4]

/-- One scored RFM record (`rfm.reset_index()` row). -/
structure RFMRow where
  customer : String
  name : String
  recency : ℚ
  freq : ℚ
  mon : ℚ
  recScore : ℕ
  freqScore : ℕ
  monScore : ℕ
  segment : String
deriving DecidableEq

/-- Attach the three score columns to the grouped metrics and build
`RFM_Segment` by concatenating the scores as strings. -/
def buildRFMRows (gs : List RFMGroup) (rs fs ms : List ℕ) : List RFMRow :=
  (gs.zip ((rs.zip fs).zip ms)).map fun p =>
    { customer := p.1.customer, name := p.1.name,
      recency := p.1.recency, freq := p.1.freq, mon := p.1.mon,
      recScore := p.2.1.1, freqScore := p.2.1.2, monScore := p.2.2,
      segment := toString p.2.1.1 ++ toString p.2.1.2 ++ toString p.2.2 }

/-- `calculate_rfm(df, latest_date)`: `None` on empty input; group by
`(Customer, Name)`; score the three metric columns; any `ValueError`
raised by `pd.qcut` is caught by the surrounding `try`/`except`, which
logs and returns `None`. -/
def calculate_rfm (df : List Txn) (latestDay : ℤ) : Option (List RFMRow) :=
  if df.isEmpty then none
  else
    let gs := rfmGroups df latestDay
    match scoreMetric (gs.map (·.recency)) recLabels,
          scoreMetric (gs.map (·.freq)) dirLabels,
          scoreMetric (gs.map (·.mon)) dirLabels with
    | .ok rs, .ok fs, .ok ms => some (buildRFMRows gs rs fs ms)
    | _, _, _ => none

/-! ## The RFM section of the customer tab
(`plot_customer_analysis`, `visualizations.py` lines 297-333) -/

/-- The maximum billing day of a dataset (`df['Billing Date'].max()`);
only consulted on non-empty datasets. -/
def maxBillingDay (df : List Txn) : ℤ :=
  (df.map fun t => t.billingDate.epochDay).max?.getD 0

/-- The reference date handed to `calculate_rfm`:
`max(curr.max(), prev.max()) if not curr.empty and not prev.empty else
pd.Timestamp.now()` — the maxima are used only when BOTH datasets are
non-empty; otherwise the wall clock (`nowDay`) is used. -/
def latestRefDay (dfPrev dfCurr : List Txn) (nowDay : ℤ) : ℤ :=
  if ¬ dfCurr.isEmpty ∧ ¬ dfPrev.isEmpty then
    max (maxBillingDay dfCurr) (maxBillingDay dfPrev)
  else nowDay

/-- A row of the displayed RFM table after the re-aggregation
`rfm_curr.groupby('Customer').agg({'Recency': 'min', 'Frequency': 'sum',
'Monetary': 'sum', 'Name': 'first', 'RFM_Segment': 'first'})`
(the individual score columns are not carried through). -/
structure RFMAggRow where
  customer : String
  name : String
  recency : ℚ
  freq : ℚ
  mon : ℚ
  segment : String
deriving DecidableEq

/-- The re-aggregation by customer applied to the scored rows. -/
def rfmReagg (rows : List RFMRow) : List RFMAggRow :=
  (List.insertionSort (fun a b => ¬ b < a) ((rows.map (·.customer)).dedup)).map fun c =>
    let g := rows.filter fun r => r.customer = c
    { customer := c
      name := (g.head?.map (·.name)).getD ""
      recency := (g.map (·.recency)).min?.getD 0
      freq := (g.map (·.freq)).sum
      mon := (g.map (·.mon)).sum
      segment := (g.head?.map (·.segment)).getD "" }

/-- What the RFM section of the customer tab produces: the
select-a-customer prompt, no table (empty filtered data or a scoring
error), or the re-aggregated table.  The appended presentation totals row
and the spreadsheet export are rendering details no property reads. -/
inductive RFMOutcome where
  | prompt
  | noTable
  | table (rows : List RFMAggRow)
deriving DecidableEq

/-- The RFM section of `plot_customer_analysis`: gated on a non-empty
customer selection; `calculate_rfm` runs only on a non-empty filtered
current dataset.  The `Bool` records whether `calculate_rfm` was invoked. -/
def customerRFMSection (dfPrev dfCurr : List Txn) (f : Filters) (nowDay : ℤ) :
    Bool × RFMOutcome :=
  if f.customers.isEmpty then (false, .prompt)
  else
    let latest := latestRefDay dfPrev dfCurr nowDay
    let dfCurrF := filterRows dfCurr f
    if dfCurrF.isEmpty then (false, .noTable)
    else
      match calculate_rfm dfCurrF latest with
      | none => (true, .noTable)
      | some rows => (true, .table (rfmReagg rows))

/-! ## Concrete example data used by the witnesses and counterexamples -/

/-- A transaction literal with the fields the examples vary. -/
def mkT (day : ℤ) (m : ℕ) (cust nm : String) (amt : ℚ) : Txn :=
  { billingDate := { epochDay := day, month := m }
    customer := cust, name := nm, material := "M1", itemDesc := "item"
    quantity := 1, unitPrice := 1, netAmount := amt
    program := "P", productHier := "H", tdv := "T1" }

/-- Current-period dataset with a single zero-amount transaction of
customer "A" (previous period empty): the `0 / 0` growth row. -/
def exC1Curr : List Txn := [mkT 10 1 "A" "An" 0]

/-- A one-row dataset whose billing month is 5. -/
def exC2Df : List Txn := [mkT 40 5 "A" "An" 3]

/-- Four single-transaction customers whose Monetary column is
`[1, 1, 1, 2]`: two distinct values, but the tied quartile edges merge
the bins and `pd.qcut` raises. -/
def exC3Df : List Txn :=
  [mkT 100 1 "A" "a" 1, mkT 90 1 "B" "b" 1, mkT 80 1 "C" "c" 1, mkT 70 1 "D" "d" 2]

/-- A non-empty current dataset whose maximum billing day is 100. -/
def exC4Curr : List Txn := [mkT 100 1 "A" "a" 5]

/-- Four single-transaction customers with distinct recencies
(0, 10, 20, 30 days) and distinct monetary totals: all three metric
columns score without an error. -/
def exC6Df : List Txn :=
  [mkT 100 1 "A" "a" 10, mkT 90 1 "B" "b" 20, mkT 80 1 "C" "c" 30, mkT 70 1 "D" "d" 40]

/-- The scored record of customer "A" on `exC6Df` (most recent, score 4). -/
def exC6RowA : RFMRow :=
  { customer := "A", name := "a", recency := 0, freq := 1, mon := 10,
    recScore := 4, freqScore := 1, monScore := 1, segment := "411" }

/-- The scored record of customer "B" on `exC6Df`. -/
def exC6RowB : RFMRow :=
  { customer := "B", name := "b", recency := 10, freq := 1, mon := 20,
    recScore := 3, freqScore := 1, monScore := 2, segment := "312" }

/-- The scored records `calculate_rfm` produces on `exC6Df` with
reference day 100. -/
def exC6Rows : List RFMRow :=
  [exC6RowA, exC6RowB,
   { customer := "C", name := "c", recency := 20, freq := 1, mon := 30,
     recScore := 2, freqScore := 1, monScore := 3, segment := "213" },
   { customer := "D", name := "d", recency := 30, freq := 1, mon := 40,
     recScore := 1, freqScore := 1, monScore := 4, segment := "114" }]

/-- Previous period: customer "A" only. -/
def exC7Prev : List Txn := [mkT 10 1 "A" "a" 5]

/-- Current period: customer "B" only. -/
def exC7Curr : List Txn := [mkT 20 1 "B" "b" 7]

/-- The current-only row of the outer-merged customer table of
`exC7Prev` / `exC7Curr`: the missing previous side is filled with 0. -/
def exC7RowB : AggRow :=
  { key := "B", namePrev := .numV 0, amtPrev := 0,
    nameCurr := .strV "b", amtCurr := 7, growth := .numV 0 }

/-- Previous period summing to 0 (a single zero-amount row). -/
def exC9Prev : List Txn := [mkT 10 2 "A" "a" 0]

/-- The previous-only row of the merged customer table of
`exC7Prev` / `exC7Curr`. -/
def exC7RowA : AggRow :=
  { key := "A", namePrev := .strV "a", amtPrev := 5,
    nameCurr := .numV 0, amtCurr := 0, growth := .numV (-100) }

/-- The row `aggregateTable` produces for the `0 / 0` example: previous
amount 0 (missing side filled), current amount 0, blank growth cell. -/
def exC1Row : AggRow :=
  { key := "A", namePrev := .numV 0, amtPrev := 0,
    nameCurr := .strV "An", amtCurr := 0, growth := .blankV }

/-- Non-empty previous period used to instantiate the reference-date
theorem. -/
def exC4Prev : List Txn := [mkT 50 1 "P" "p" 3]

/-! ## Helper lemmas -/

/-- The month filter keeps everything when the month list is the full
1..12 range and the dataset's months are calendar months. -/
theorem monthsAll_contains {m : Nat} (h1 : 1 ≤ m) (h2 : m ≤ 12) :
    monthsAll.contains m = true := by
  interval_cases m <;> decide

/-- Growth cell of a row whose previous amount is 0: the division yields
`±inf` (replaced by 0) for a nonzero current amount and `NaN` (rendered
blank) when the current amount is 0 as well. -/
theorem rowGrowth_prev_zero (c : ℚ) :
    rowGrowth 0 c = if c = 0 then CellVal.blankV else CellVal.numV 0 := by
  rcases lt_trichotomy c 0 with hlt | heq | hgt
  · simp [rowGrowth, fdiv, fscale100, replaceInfWithZero, fillBlank, sub_zero,
      hlt.ne, not_lt_of_gt hlt]
  · simp [heq, rowGrowth, fdiv, fscale100, replaceInfWithZero, fillBlank]
  · simp [rowGrowth, fdiv, fscale100, replaceInfWithZero, fillBlank, sub_zero,
      hgt.ne', hgt]

/-- The Python scalar growth expression is 0 whenever the previous total
is 0, whatever the current total. -/
theorem pyGrowth_zero (c : ℚ) : pyGrowth 0 c = 0 := by
  simp [pyGrowth]

/-! ## C2: the all-empty FilterSpec is the identity -/

/-- C2 (confirmed): applying the FilterSpec built from all-empty
selections to any dataset returns it unchanged — `main.py` defaults an
empty month selection to all twelve months, every calendar month lies in
that list, and the three other restrictions only apply to non-empty
selections. -/
theorem filter_default_identity (df : List Txn)
    (hv : ∀ t ∈ df, 1 ≤ t.billingDate.month ∧ t.billingDate.month ≤ 12) :
    filterRows df (mkFilters [] [] [] []) = df := by
  have hf : mkFilters [] [] [] [] =
      { months := monthsAll, customers := [], materials := [], tdvs := [] } := rfl
  rw [hf]
  simp only [filterRows, List.isEmpty_nil, if_true]
  simp only [List.filter_eq_self]
  intro a ha
  simpa using monthsAll_contains (hv a ha).1 (hv a ha).2

/-- Witness for C2 at a concrete one-row dataset with billing month 5. -/
theorem filter_default_identity_witness :
    (∀ t ∈ exC2Df, 1 ≤ t.billingDate.month ∧ t.billingDate.month ≤ 12) ∧
    filterRows exC2Df (mkFilters [] [] [] []) = exC2Df :=
  ⟨by decide, filter_default_identity exC2Df (by decide)⟩

/-! ## C8: required-column gate of the loader -/

/-- C8 (confirmed): loading fails exactly when one of the eleven
required columns is absent, the error lists exactly the missing names
(in the source's required-column order) and carries no partial dataset;
with all columns present the row-level cleaning stage runs. -/
theorem load_schema_check (cols : List String) (rows : List RawRow) :
    (load_and_validate_data cols rows =
      if required_columns.all fun c => cols.contains c then Except.ok (cleanRows rows)
      else Except.error (required_columns.filter fun c => ¬ cols.contains c)) ∧
    required_columns.length = 11 := by
  refine ⟨?_, rfl⟩
  by_cases h : required_columns.all fun c => cols.contains c
  · rw [if_pos h]
    have hmiss : (required_columns.filter fun c => ¬ cols.contains c) = [] := by
      rw [List.filter_eq_nil_iff]
      intro a ha
      have hmem := List.all_eq_true.mp h a ha
      simp only [decide_eq_true_eq, Decidable.not_not]
      simpa using hmem
    unfold load_and_validate_data cleanRows
    rw [hmiss]
    rfl
  · rw [if_neg h]
    have hne : (required_columns.filter fun c => ¬ cols.contains c) ≠ [] := by
      intro hnil
      apply h
      rw [List.all_eq_true]
      intro a ha
      by_contra hc
      have hmem : a ∈ required_columns.filter fun c => ¬ cols.contains c :=
        List.mem_filter.mpr ⟨ha, by simpa using hc⟩
      rw [hnil] at hmem
      exact (List.not_mem_nil a) hmem
    unfold load_and_validate_data
    rw [if_neg fun him => hne (List.isEmpty_iff.mp him)]

/-! ## C9: totals-row consistency -/

/-- C9 (confirmed): for every grouping key, the appended totals row's two
amount columns are the sums of the corresponding columns over the entity
rows, and its growth is computed from those sums by the scalar expression
whose falsy test yields 0 whenever the previous sum is 0. -/
theorem totals_row_consistency (dfPrev dfCurr : List Txn) (key lbl : Txn → String) :
    (aggregateTable dfPrev dfCurr key lbl).totals.amtPrev
        = ((aggregateTable dfPrev dfCurr key lbl).rows.map (·.amtPrev)).sum ∧
    (aggregateTable dfPrev dfCurr key lbl).totals.amtCurr
        = ((aggregateTable dfPrev dfCurr key lbl).rows.map (·.amtCurr)).sum ∧
    (aggregateTable dfPrev dfCurr key lbl).totals.growth
        = CellVal.numV (pyGrowth
            (((aggregateTable dfPrev dfCurr key lbl).rows.map (·.amtPrev)).sum)
            (((aggregateTable dfPrev dfCurr key lbl).rows.map (·.amtCurr)).sum)) ∧
    (((aggregateTable dfPrev dfCurr key lbl).rows.map (·.amtPrev)).sum = 0 →
        (aggregateTable dfPrev dfCurr key lbl).totals.growth = CellVal.numV 0) := by
  refine ⟨rfl, rfl, rfl, fun h => ?_⟩
  have e : (aggregateTable dfPrev dfCurr key lbl).totals.growth
      = CellVal.numV (pyGrowth
          (((aggregateTable dfPrev dfCurr key lbl).rows.map (·.amtPrev)).sum)
          (((aggregateTable dfPrev dfCurr key lbl).rows.map (·.amtCurr)).sum)) := rfl
  rw [e, h, pyGrowth_zero]

/-- Witness for C9: a previous period summing to 0 makes the totals-row
growth the number 0 (not blank, not an error). -/
theorem totals_row_consistency_witness :
    (aggregateTable exC9Prev [] Txn.customer Txn.name).totals.growth = CellVal.numV 0 :=
  (totals_row_consistency exC9Prev [] Txn.customer Txn.name).2.2.2
    (by with_unfolding_all rfl)

/-! ## C10: RFM is gated on a non-empty customer selection -/

/-- C10 (confirmed): with an empty customer selection the RFM section of
the customer tab shows the select-a-customer prompt, never calls
`calculate_rfm`, and produces no RFM table. -/
theorem rfm_customer_gate (dfPrev dfCurr : List Txn) (f : Filters) (nowDay : ℤ)
    (h : f.customers = []) :
    customerRFMSection dfPrev dfCurr f nowDay = (false, RFMOutcome.prompt) := by
  unfold customerRFMSection
  rw [h]
  rfl

/-- Witness for C10 at a concrete filter with an empty customer list. -/
theorem rfm_customer_gate_witness :
    customerRFMSection exC2Df exC1Curr (mkFilters [1] [] [] []) 0
      = (false, RFMOutcome.prompt) :=
  rfm_customer_gate exC2Df exC1Curr (mkFilters [1] [] [] []) 0 rfl

/-! ## C1: growth zero-division policy -/

/-- C1 (counterexample to the claim as stated): in the concrete merged
customer table whose only entity has `amount_prev = 0` and
`amount_curr = 0`, the growth cell is blank (`0 / 0` is `NaN`, untouched
by the `inf` replacement, emptied by `.fillna('')`) — not 0. -/
theorem growth_zero_policy_counterexample :
    ((aggregateTable [] exC1Curr Txn.customer Txn.name).rows.map fun r => (r.amtPrev, r.growth))
      = [((0 : ℚ), CellVal.blankV)] ∧ CellVal.blankV ≠ CellVal.numV 0 :=
  ⟨by with_unfolding_all rfl, by decide⟩

/-- C1 (amended): a row with `amount_prev = 0` has growth 0 when
`amount_curr ≠ 0` and a blank growth cell when `amount_curr = 0`; the
totals-row growth and the headline growth, computed by the Python scalar
conditional, are 0 whenever their previous total is 0 (including the
both-zero case). -/
theorem growth_zero_policy (dfPrev dfCurr : List Txn) (key lbl : Txn → String) (r : AggRow)
    (hr : r ∈ (aggregateTable dfPrev dfCurr key lbl).rows) (hp : r.amtPrev = 0) :
    (r.growth = if r.amtCurr = 0 then CellVal.blankV else CellVal.numV 0) ∧
    (((aggregateTable dfPrev dfCurr key lbl).rows.map (·.amtPrev)).sum = 0 →
        (aggregateTable dfPrev dfCurr key lbl).totals.growth = CellVal.numV 0) ∧
    (∀ dfa dfb : List Txn, overviewTotal dfa = 0 → overviewGrowth dfa dfb = 0) := by
  refine ⟨?_, fun h => ?_, fun dfa dfb h0 => ?_⟩
  · have hr2 : r ∈ List.map
        (fun m => (⟨m.key, m.namePrev, m.amtPrev, m.nameCurr, m.amtCurr,
          rowGrowth m.amtPrev m.amtCurr⟩ : AggRow))
        (mergeOuterFill (groupAgg dfPrev key lbl) (groupAgg dfCurr key lbl)) := hr
    rcases List.mem_map.mp hr2 with ⟨m, _, rfl⟩
    show rowGrowth m.amtPrev m.amtCurr = if m.amtCurr = 0 then CellVal.blankV else CellVal.numV 0
    have hp2 : m.amtPrev = 0 := hp
    rw [hp2]
    exact rowGrowth_prev_zero m.amtCurr
  · have e : (aggregateTable dfPrev dfCurr key lbl).totals.growth
        = CellVal.numV (pyGrowth
            (((aggregateTable dfPrev dfCurr key lbl).rows.map (·.amtPrev)).sum)
            (((aggregateTable dfPrev dfCurr key lbl).rows.map (·.amtCurr)).sum)) := rfl
    rw [e, h, pyGrowth_zero]
  · unfold overviewGrowth
    rw [h0, pyGrowth_zero]

/-- Witness for C1 (amended) at the concrete `0 / 0` row. -/
theorem growth_zero_policy_witness :
    exC1Row.growth = if exC1Row.amtCurr = 0 then CellVal.blankV else CellVal.numV 0 :=
  (growth_zero_policy [] exC1Curr Txn.customer Txn.name exC1Row
    (by with_unfolding_all decide) (by with_unfolding_all rfl)).1

/-! ## C4: the RFM reference date -/

/-- C4 (counterexample to the claim as stated): with an empty previous
period and a non-empty current period (maximum billing day 100) the code
takes the `pd.Timestamp.now()` branch — the wall clock (modelled as day
999), not the non-empty dataset's maximum — because the maxima are only
used when BOTH datasets are non-empty. -/
theorem latest_ref_counterexample :
    latestRefDay [] exC4Curr 999 = 999 ∧ maxBillingDay exC4Curr = 100 ∧ (999 : ℤ) ≠ 100 :=
  ⟨rfl, rfl, by decide⟩

/-- C4 (amended): the reference date is the later of the two datasets'
maximum billing dates whenever both datasets are non-empty; the wall
clock is used whenever either dataset is empty. -/
theorem latest_ref_both_nonempty (dfPrev dfCurr : List Txn) (nowDay : ℤ)
    (hp : dfPrev ≠ []) (hc : dfCurr ≠ []) :
    latestRefDay dfPrev dfCurr nowDay = max (maxBillingDay dfCurr) (maxBillingDay dfPrev) := by
  unfold latestRefDay
  rw [if_pos]
  exact ⟨fun h => hc (List.isEmpty_iff.mp h), fun h => hp (List.isEmpty_iff.mp h)⟩

/-- Witness for C4 (amended) at two concrete non-empty datasets. -/
theorem latest_ref_both_nonempty_witness :
    latestRefDay exC4Prev exC4Curr 999 = max (maxBillingDay exC4Curr) (maxBillingDay exC4Prev) :=
  latest_ref_both_nonempty exC4Prev exC4Curr 999 (by simp [exC4Prev, mkT]) (by simp [exC4Curr, mkT])

/-! ## C5: normalization idempotence -/

/-- A successful strip removes exactly one `'.'`-headed tail: the
remainder has strictly fewer dots than the input. -/
theorem stripTailRev_count (r r2 : List Char) (h : stripTailRev r = some r2) :
    r2.count '.' + 1 ≤ r.count '.' := by
  unfold stripTailRev at h
  by_cases hc : 0 < (r.takeWhile fun c => c == '0').length ∧
      r[(r.takeWhile fun c => c == '0').length]? = some '.'
  · rw [if_pos hc] at h
    have hr2 : r2 = r.drop ((r.takeWhile fun c => c == '0').length + 1) :=
      (Option.some.inj h).symm
    set k := (r.takeWhile fun c => c == '0').length with hk
    obtain ⟨t, ht⟩ : ∃ t, r.drop k = '.' :: t := by
      have hh : (r.drop k).head? = some '.' := by rw [List.head?_drop]; exact hc.2
      cases hdk : r.drop k with
      | nil => rw [hdk] at hh; cases hh
      | cons a t =>
        rw [hdk] at hh
        exact ⟨t, by rw [Option.some.inj hh]⟩
    have hsplit : r.take k ++ ('.' :: t) = r := by rw [← ht]; exact List.take_append_drop k r
    have ht2 : r2 = t := by
      rw [hr2, ← List.drop_drop 1 k r, ht]
      rfl
    have hcnt : r.count '.' = (r.take k).count '.' + (('.' :: t).count '.') := by
      conv_lhs => rw [← hsplit]
      exact List.count_append '.' _ _
    have hcons : (('.' : Char) :: t).count '.' = t.count '.' + 1 := List.count_cons_self '.' t
    rw [ht2]
    omega
  · rw [if_neg hc] at h
    cases h

/-- A string with no dot has no `\.0+$` match. -/
theorem stripTailRev_none_of_no_dot (r : List Char) (h : r.count '.' = 0) :
    stripTailRev r = none := by
  unfold stripTailRev
  rw [if_neg]
  rintro ⟨-, hget⟩
  obtain ⟨hlt, helem⟩ := List.getElem?_eq_some.mp hget
  have hmem : '.' ∈ r := helem ▸ List.getElem_mem hlt
  exact (List.count_eq_zero.mp h) hmem

/-- C5 (counterexample to the claim as stated): the substitution strips
only one trailing zero-tail, so `"7.0.0"` normalizes to `"7.0"`, which is
itself changed by a second normalization — idempotence fails. -/
theorem normalize_idempotent_counterexample :
    normalizeId (normalizeId "7.0.0") ≠ normalizeId "7.0.0" ∧
    normalizeId "7.0.0" = "7.0" ∧ normalizeId "7.0" = "7" :=
  ⟨by decide, by decide, by decide⟩

/-- C5 (amended): `"123.0"` and `"123"` normalize to the same value, and
normalization is idempotent on identifiers containing at most one dot
(in particular on every float-artifact ID the loader is meant to clean);
it is not idempotent on strings with several dot-zero tails. -/
theorem normalize_idempotent (s : String) (h : s.data.count '.' ≤ 1) :
    normalizeId (normalizeId s) = normalizeId s ∧ normalizeId "123.0" = normalizeId "123" := by
  refine ⟨?_, by decide⟩
  rcases hs : stripTailRev s.data.reverse with - | r
  · have h1 : normalizeId s = s := by unfold normalizeId; rw [hs]
    rw [h1]
    exact h1
  · have h1 : normalizeId s = String.mk r.reverse := by unfold normalizeId; rw [hs]
    have hcount : r.count '.' = 0 := by
      have hc := stripTailRev_count _ _ hs
      have hrev : (s.data.reverse).count '.' = s.data.count '.' := List.count_reverse '.' s.data
      omega
    have h2 : (String.mk r.reverse).data.reverse = r := List.reverse_reverse r
    have h3 : normalizeId (String.mk r.reverse) = String.mk r.reverse := by
      unfold normalizeId
      rw [h2, stripTailRev_none_of_no_dot r hcount]
    rw [h1, h3]

/-- Witness for C5 (amended) at a concrete single-dot identifier. -/
theorem normalize_idempotent_witness :
    ("55.0" : String).data.count '.' ≤ 1 ∧
    (normalizeId (normalizeId "55.0") = normalizeId "55.0" ∧
      normalizeId "123.0" = normalizeId "123") :=
  ⟨by decide, normalize_idempotent "55.0" (by decide)⟩

/-! ## C7: outer-join completeness -/

/-- The key field of a joined left row is the left key. -/
theorem mergeLeftRow_key (R : List (String × String × ℚ)) (e : String × String × ℚ) :
    (mergeLeftRow R e).key = e.1 := by
  unfold mergeLeftRow
  rcases lookupKey R e.1 with - | e2 <;> rfl

/-- The previous-amount field of a joined left row is the left amount. -/
theorem mergeLeftRow_amtPrev (R : List (String × String × ℚ)) (e : String × String × ℚ) :
    (mergeLeftRow R e).amtPrev = e.2.2 := by
  unfold mergeLeftRow
  rcases lookupKey R e.1 with - | e2 <;> rfl

/-- A left row with no right partner gets current amount 0 from
`.fillna(0)`. -/
theorem mergeLeftRow_amtCurr_none (R : List (String × String × ℚ)) (e : String × String × ℚ)
    (h : lookupKey R e.1 = none) : (mergeLeftRow R e).amtCurr = 0 := by
  unfold mergeLeftRow
  rw [h]

/-- The grouped frame's key column is the sorted distinct key list. -/
theorem groupAgg_keys (df : List Txn) (key lbl : Txn → String) :
    (groupAgg df key lbl).map (fun e => e.1) = groupKeys df key := by
  unfold groupAgg
  rw [List.map_map]
  exact List.map_id _

/-- Group keys are distinct. -/
theorem groupKeys_nodup (df : List Txn) (key : Txn → String) :
    (groupKeys df key).Nodup := by
  unfold groupKeys
  exact ((List.perm_insertionSort _ _).nodup_iff).mpr (List.nodup_dedup _)

/-- A key is a group key iff some row carries it. -/
theorem mem_groupKeys {df : List Txn} {key : Txn → String} {k : String} :
    k ∈ groupKeys df key ↔ k ∈ df.map key := by
  unfold groupKeys
  rw [(List.perm_insertionSort _ _).mem_iff, List.mem_dedup]

/-- The join probe fails exactly when the key is absent from the frame. -/
theorem lookupKey_none_iff {R : List (String × String × ℚ)} {k : String} :
    lookupKey R k = none ↔ k ∉ R.map (fun e => e.1) := by
  unfold lookupKey
  rw [List.find?_eq_none]
  constructor
  · intro h hmem
    rcases List.mem_map.mp hmem with ⟨e, he, rfl⟩
    have hne : ¬ e.1 = e.1 := by simpa using h e he
    exact hne rfl
  · intro h e he
    simp only [decide_eq_true_eq]
    intro heq
    exact h (List.mem_map.mpr ⟨e, he, heq⟩)

/-- A successful join probe returns an element of the frame with the
probed key. -/
theorem lookupKey_some_mem {R : List (String × String × ℚ)} {k : String}
    {e : String × String × ℚ} (h : lookupKey R k = some e) :
    e ∈ R ∧ e.1 = k := by
  refine ⟨List.mem_of_find?_eq_some h, ?_⟩
  have := List.find?_some h
  simpa using this

/-- The key column of the merged frame: all left keys, then the
right-only keys. -/
theorem mergeOuterFill_keys (L R : List (String × String × ℚ)) :
    (mergeOuterFill L R).map (·.key)
      = L.map (fun e => e.1)
        ++ (R.filter fun e => (lookupKey L e.1).isNone).map (fun e => e.1) := by
  unfold mergeOuterFill
  rw [List.map_append, List.map_map, List.map_map]
  congr 1
  exact List.map_congr_left fun e _ => mergeLeftRow_key R e

/-- C7 (confirmed): for every grouping key function, each entity id
present in either filtered period appears exactly once among the entity
rows of the merged table, and an entity missing from one period has
amount 0 on that side. -/
theorem outer_join_completeness (dfPrev dfCurr : List Txn) (key lbl : Txn → String)
    (k : String) :
    (((aggregateTable dfPrev dfCurr key lbl).rows.map (·.key)).count k
        = if k ∈ dfPrev.map key ∨ k ∈ dfCurr.map key then 1 else 0) ∧
    ∀ r ∈ (aggregateTable dfPrev dfCurr key lbl).rows,
      (r.key ∉ dfPrev.map key → r.amtPrev = 0) ∧
      (r.key ∉ dfCurr.map key → r.amtCurr = 0) := by
  have hkeysP : (groupAgg dfPrev key lbl).map (fun e => e.1) = groupKeys dfPrev key :=
    groupAgg_keys dfPrev key lbl
  have hkeysC : (groupAgg dfCurr key lbl).map (fun e => e.1) = groupKeys dfCurr key :=
    groupAgg_keys dfCurr key lbl
  have hrowkeys : (aggregateTable dfPrev dfCurr key lbl).rows.map (·.key)
      = (mergeOuterFill (groupAgg dfPrev key lbl) (groupAgg dfCurr key lbl)).map (·.key) := by
    have h0 : (aggregateTable dfPrev dfCurr key lbl).rows
        = List.map (fun m => (⟨m.key, m.namePrev, m.amtPrev, m.nameCurr, m.amtCurr,
            rowGrowth m.amtPrev m.amtCurr⟩ : AggRow))
          (mergeOuterFill (groupAgg dfPrev key lbl) (groupAgg dfCurr key lbl)) := rfl
    rw [h0, List.map_map]
    rfl
  constructor
  · rw [hrowkeys, mergeOuterFill_keys, List.count_append]
    -- left half: the distinct previous-period keys
    have hcl : (List.map (fun e => e.1) (groupAgg dfPrev key lbl)).count k
        = if k ∈ dfPrev.map key then 1 else 0 := by
      rw [hkeysP, List.count_eq_of_nodup (groupKeys_nodup dfPrev key)]
      simp [mem_groupKeys]
    -- right half: the distinct right-only keys
    have hsub : List.Sublist
          (((groupAgg dfCurr key lbl).filter
            fun e => (lookupKey (groupAgg dfPrev key lbl) e.1).isNone).map (fun e => e.1))
          ((groupAgg dfCurr key lbl).map (fun e => e.1)) :=
      (List.filter_sublist _).map _
    have hnd : (((groupAgg dfCurr key lbl).filter
          fun e => (lookupKey (groupAgg dfPrev key lbl) e.1).isNone).map (fun e => e.1)).Nodup :=
      (hkeysC ▸ groupKeys_nodup dfCurr key).sublist hsub
    have hmemr : k ∈ ((groupAgg dfCurr key lbl).filter
          fun e => (lookupKey (groupAgg dfPrev key lbl) e.1).isNone).map (fun e => e.1)
        ↔ (k ∈ dfCurr.map key ∧ k ∉ dfPrev.map key) := by
      constructor
      · intro hm
        rcases List.mem_map.mp hm with ⟨e, hef, rfl⟩
        obtain ⟨heR, hp⟩ := List.mem_filter.mp hef
        refine ⟨?_, ?_⟩
        · exact mem_groupKeys.mp (hkeysC ▸ List.mem_map.mpr ⟨e, heR, rfl⟩)
        · have hnone : lookupKey (groupAgg dfPrev key lbl) e.1 = none :=
            Option.isNone_iff_eq_none.mp (by simpa using hp)
          have := lookupKey_none_iff.mp hnone
          rw [hkeysP, mem_groupKeys] at this
          exact this
      · rintro ⟨hC, hP⟩
        have : k ∈ (groupAgg dfCurr key lbl).map (fun e => e.1) := by
          rw [hkeysC]; exact mem_groupKeys.mpr hC
        rcases List.mem_map.mp this with ⟨e, heR, rfl⟩
        refine List.mem_map.mpr ⟨e, List.mem_filter.mpr ⟨heR, ?_⟩, rfl⟩
        have hnone : lookupKey (groupAgg dfPrev key lbl) e.1 = none :=
          lookupKey_none_iff.mpr (by rw [hkeysP, mem_groupKeys]; exact hP)
        simpa using hnone
    rw [List.count_eq_of_nodup hnd, hcl]
    by_cases hP : k ∈ dfPrev.map key <;> by_cases hC : k ∈ dfCurr.map key <;>
      simp [hP, hC, hmemr]
  · intro r hr
    have hr2 : r ∈ List.map
        (fun m => (⟨m.key, m.namePrev, m.amtPrev, m.nameCurr, m.amtCurr,
          rowGrowth m.amtPrev m.amtCurr⟩ : AggRow))
        (mergeOuterFill (groupAgg dfPrev key lbl) (groupAgg dfCurr key lbl)) := hr
    rcases List.mem_map.mp hr2 with ⟨m, hm, rfl⟩
    rcases List.mem_append.mp hm with hmL | hmR
    · -- a left (previous-period) row
      rcases List.mem_map.mp hmL with ⟨e, heL, rfl⟩
      constructor
      · intro hnot
        exfalso
        apply hnot
        show (mergeLeftRow _ e).key ∈ _
        rw [mergeLeftRow_key]
        exact mem_groupKeys.mp (hkeysP ▸ List.mem_map.mpr ⟨e, heL, rfl⟩)
      · intro hnot
        show (mergeLeftRow _ e).amtCurr = 0
        apply mergeLeftRow_amtCurr_none
        cases hlk : lookupKey (groupAgg dfCurr key lbl) e.1 with
        | none => rfl
        | some e2 =>
          exfalso
          obtain ⟨he2, hk2⟩ := lookupKey_some_mem hlk
          apply hnot
          show (mergeLeftRow _ e).key ∈ _
          rw [mergeLeftRow_key]
          exact mem_groupKeys.mp (hkeysC ▸ List.mem_map.mpr ⟨e2, he2, hk2⟩)
    · -- a right-only (current-period) row
      rcases List.mem_map.mp hmR with ⟨e, hef, rfl⟩
      obtain ⟨heR, -⟩ := List.mem_filter.mp hef
      constructor
      · intro _
        rfl
      · intro hnot
        exfalso
        apply hnot
        exact mem_groupKeys.mp (hkeysC ▸ List.mem_map.mpr ⟨e, heR, rfl⟩)

/-- Witness for C7: the current-only entity of the concrete example has
previous amount 0. -/
theorem outer_join_completeness_witness : exC7RowB.amtPrev = 0 := by
  have hrows : (aggregateTable exC7Prev exC7Curr Txn.customer Txn.name).rows
      = [exC7RowA, exC7RowB] := by with_unfolding_all rfl
  exact ((outer_join_completeness exC7Prev exC7Curr Txn.customer Txn.name "B").2
    exC7RowB (by rw [hrows]; simp)).1 (by decide)

/-! ## C3 and C6: RFM quartile scoring -/

/-- Bin placement is monotone in the value. -/
theorem binIndexOf_mono (edges : List ℚ) {v w : ℚ} (hvw : v ≤ w) :
    binIndexOf edges v ≤ binIndexOf edges w := by
  unfold binIndexOf
  apply List.countP_mono_left
  intro e _ hev
  simp only [decide_eq_true_eq] at hev ⊢
  exact lt_of_lt_of_le hev hvw

/-- A bin index never exceeds the number of internal edges. -/
theorem binIndexOf_le (edges : List ℚ) (v : ℚ) :
    binIndexOf edges v ≤ edges.length - 2 := by
  unfold binIndexOf
  have h1 := List.countP_le_length (l := (edges.drop 1).dropLast)
    (p := fun e => decide (e < v))
  have h2 : ((edges.drop 1).dropLast).length = edges.length - 1 - 1 := by
    rw [List.length_dropLast, List.length_drop]
  omega

/-- The inverted recency label list is antitone in the bin index. -/
theorem recLabels_getD_antitone {i j : ℕ} (hij : i ≤ j) (hj : j ≤ 3) :
    recLabels.getD j 0 ≤ recLabels.getD i 0 := by
  interval_cases j <;> interval_cases i <;> decide

/-- A successful metric scoring is a pointwise function of the metric
column (constant 1 in the degenerate branch, the bin labelling in the
`pd.qcut` branch). -/
theorem scoreMetric_ok_exists_map (vals : List ℚ) (labels : List ℕ) (out : List ℕ)
    (h : scoreMetric vals labels = .ok out) : ∃ g : ℚ → ℕ, out = vals.map g := by
  unfold scoreMetric at h
  by_cases hd : vals.dedup.length ≤ 1
  · rw [if_pos hd] at h
    exact ⟨fun _ => 1, (Except.ok.inj h).symm⟩
  · rw [if_neg hd] at h
    simp only [qcut] at h
    by_cases hl : labels.length = ((qcutEdges vals).dedup).length - 1
    · rw [if_pos hl] at h
      exact ⟨fun v => labels.getD (binIndexOf ((qcutEdges vals).dedup) v) 0,
        (Except.ok.inj h).symm⟩
    · rw [if_neg hl] at h
      exact Except.noConfusion h

/-- A successful Recency scoring is a pointwise antitone function of the
recency column: smaller recency never scores lower. -/
theorem scoreMetric_rec_ok (vals : List ℚ) (out : List ℕ)
    (h : scoreMetric vals recLabels = .ok out) :
    ∃ g : ℚ → ℕ, out = vals.map g ∧ ∀ v w : ℚ, v ≤ w → g w ≤ g v := by
  unfold scoreMetric at h
  by_cases hd : vals.dedup.length ≤ 1
  · rw [if_pos hd] at h
    exact ⟨fun _ => 1, (Except.ok.inj h).symm, fun v w _ => le_refl 1⟩
  · rw [if_neg hd] at h
    simp only [qcut] at h
    by_cases hl : recLabels.length = ((qcutEdges vals).dedup).length - 1
    · rw [if_pos hl] at h
      refine ⟨fun v => recLabels.getD (binIndexOf ((qcutEdges vals).dedup) v) 0,
        (Except.ok.inj h).symm, fun v w hvw => ?_⟩
      have hrl : recLabels.length = 4 := rfl
      have hlen : ((qcutEdges vals).dedup).length = 5 := by omega
      have hb : binIndexOf ((qcutEdges vals).dedup) w ≤ 3 := by
        have := binIndexOf_le ((qcutEdges vals).dedup) w
        omega
      exact recLabels_getD_antitone (binIndexOf_mono _ hvw) hb
    · rw [if_neg hl] at h
      exact Except.noConfusion h

/-- Zipping a list with a mapped copy of itself pairs each element with
its image. -/
theorem zip_self_map {α : Type} {β : Type} (l : List α) (f : α → β) :
    l.zip (l.map f) = l.map fun a => (a, f a) := by
  induction l with
  | nil => rfl
  | cons x xs ih => simp [ih]

/-- A successful `calculate_rfm` run scores each grouped customer by
pointwise functions of the three metrics, the recency one antitone. -/
theorem calculate_rfm_some_shape (df : List Txn) (latestDay : ℤ) (rows : List RFMRow)
    (h : calculate_rfm df latestDay = some rows) :
    ∃ gr gf gm : ℚ → ℕ,
      rows = (rfmGroups df latestDay).map (fun x =>
        { customer := x.customer, name := x.name, recency := x.recency,
          freq := x.freq, mon := x.mon,
          recScore := gr x.recency, freqScore := gf x.freq, monScore := gm x.mon,
          segment := toString (gr x.recency) ++ toString (gf x.freq)
            ++ toString (gm x.mon) }) ∧
      ∀ v w : ℚ, v ≤ w → gr w ≤ gr v := by
  unfold calculate_rfm at h
  by_cases hemp : df.isEmpty
  · rw [if_pos hemp] at h
    exact Option.noConfusion h
  · rw [if_neg hemp] at h
    dsimp only at h
    rcases h1 : scoreMetric ((rfmGroups df latestDay).map (·.recency)) recLabels with e1 | rs
    all_goals rcases h2 : scoreMetric ((rfmGroups df latestDay).map (·.freq)) dirLabels with e2 | fs
    all_goals rcases h3 : scoreMetric ((rfmGroups df latestDay).map (·.mon)) dirLabels with e3 | ms
    all_goals rw [h1, h2, h3] at h
    all_goals try exact Option.noConfusion h
    have hrows : rows = buildRFMRows (rfmGroups df latestDay) rs fs ms :=
      (Option.some.inj h).symm
    obtain ⟨gr, hrs, hmono⟩ := scoreMetric_rec_ok _ _ h1
    obtain ⟨gf, hfs⟩ := scoreMetric_ok_exists_map _ _ _ h2
    obtain ⟨gm, hms⟩ := scoreMetric_ok_exists_map _ _ _ h3
    refine ⟨gr, gf, gm, ?_, hmono⟩
    rw [hrows, hrs, hfs, hms]
    unfold buildRFMRows
    rw [List.map_map, List.map_map, List.map_map, List.zip_map', List.zip_map',
      zip_self_map, List.map_map]
    rfl

/-- C6 (confirmed): in any successfully scored RFM population, a customer
with strictly smaller recency has a recency score at least as large as a
customer with larger recency (the inverted quartile direction). -/
theorem rfm_recency_direction (df : List Txn) (latestDay : ℤ) (rows : List RFMRow)
    (h : calculate_rfm df latestDay = some rows) (r1 r2 : RFMRow)
    (h1 : r1 ∈ rows) (h2 : r2 ∈ rows) (hlt : r1.recency < r2.recency) :
    r2.recScore ≤ r1.recScore := by
  obtain ⟨gr, gf, gm, hrows, hmono⟩ := calculate_rfm_some_shape df latestDay rows h
  subst hrows
  rcases List.mem_map.mp h1 with ⟨x1, -, rfl⟩
  rcases List.mem_map.mp h2 with ⟨x2, -, rfl⟩
  exact hmono x1.recency x2.recency (le_of_lt hlt)

/-- Witness for C6 on a concrete four-customer population where all three
metrics score successfully. -/
theorem rfm_recency_direction_witness : exC6RowB.recScore ≤ exC6RowA.recScore :=
  rfm_recency_direction exC6Df 100 exC6Rows (by with_unfolding_all rfl)
    exC6RowA exC6RowB (by simp [exC6Rows]) (by simp [exC6Rows])
    (by norm_num [exC6RowA, exC6RowB])

/-- C3 (counterexample to the claim as stated): on a four-customer
population whose Monetary column is `[1, 1, 1, 2]` (two distinct values,
but only three distinct quartile edges after `duplicates='drop'`),
`calculate_rfm` does NOT succeed: the fixed four-label list mismatches
the merged bin count, `pd.qcut` raises `ValueError`, the surrounding
handler returns `None`, and no scores are produced. -/
theorem rfm_tie_merge_counterexample :
    calculate_rfm exC3Df 100 = none ∧
    ((rfmGroups exC3Df 100).map (·.mon)).dedup.length = 2 ∧
    ((qcutEdges ((rfmGroups exC3Df 100).map (·.mon))).dedup).length = 3 :=
  ⟨by with_unfolding_all rfl, by with_unfolding_all rfl, by with_unfolding_all rfl⟩

/-- C3 (amended): whenever tied values make any of the three metric
scorings raise (`pd.qcut`'s label count no longer matches the merged bin
count), `calculate_rfm` catches the `ValueError` and returns `None` — no
RFM table with merged-bucket scores is produced. -/
theorem rfm_tie_merge_returns_none (df : List Txn) (latestDay : ℤ)
    (h : scoreMetric ((rfmGroups df latestDay).map (·.recency)) recLabels = .error () ∨
         scoreMetric ((rfmGroups df latestDay).map (·.freq)) dirLabels = .error () ∨
         scoreMetric ((rfmGroups df latestDay).map (·.mon)) dirLabels = .error ()) :
    calculate_rfm df latestDay = none := by
  unfold calculate_rfm
  by_cases hemp : df.isEmpty
  · rw [if_pos hemp]
  · rw [if_neg hemp]
    dsimp only
    rcases h1 : scoreMetric ((rfmGroups df latestDay).map (·.recency)) recLabels with e1 | rs
    all_goals rcases h2 : scoreMetric ((rfmGroups df latestDay).map (·.freq)) dirLabels with e2 | fs
    all_goals rcases h3 : scoreMetric ((rfmGroups df latestDay).map (·.mon)) dirLabels with e3 | ms
    all_goals rw [h1, h2, h3]
    rcases h with ha | ha | ha
    · rw [h1] at ha
      exact Except.noConfusion ha
    · rw [h2] at ha
      exact Except.noConfusion ha
    · rw [h3] at ha
      exact Except.noConfusion ha

/-- Witness for C3 (amended): the concrete tied population yields `None`. -/
theorem rfm_tie_merge_returns_none_witness : calculate_rfm exC3Df 100 = none :=
  rfm_tie_merge_returns_none exC3Df 100 (Or.inr (Or.inr (by with_unfolding_all rfl)))

end SalesApp
